import Mathlib

/-!
Verification development for the forma-veridica multi-camera reconstruction
pipeline (Rust, OpenCV-based).  The definitions below are a shallow embedding
of the repository's own code:

* `src/lib_cv/src/reconstruction.rs` — `triangulate_points_multiple`,
  `min_visible_match_set`, `add_color_to_point_cloud`,
  `filter_point_cloud_by_confindence`;
* `src/lib_cv/src/correspondence.rs` — `gather_points_2d_from_matches`;
* `src/lib_cv/src/calibration.rs` — `find_common_points`, `select_rows`,
  `calibrate_multiple_with_charuco`, `load_camera_parameters`,
  `CameraParameters::new`;
* `src/reconstruction_app/src/app.rs` — the per-frame body of the temporal
  tracking loop in `run_pipeline`.

Modelling conventions:
* `f64`/`f32` arithmetic is modelled exactly over `ℚ`; the one operation that
  leaves `ℚ` (the `sqrt` in the per-camera Euclidean reprojection distance) is
  abstracted as a parameter `sqrtF : ℚ → ℚ` about which theorems only assume
  non-negativity (true of `f64::sqrt` on the non-negative squared distances).
* OpenCV `Mat`s carrying numeric data are `MatQ = List (List ℚ)` (row major)
  or, where the row/column counts matter on their own, the record `RMat` with
  a total entry function (the source's `at_2d` bound checks are noted where
  they would fire).
* External OpenCV routines (`sfm::triangulate_points`, `stereo_calibrate`,
  `calc_optical_flow_pyr_lk`, `undistort_points`) are oracle parameters; the
  code under verification only sequences and post-processes their results.
* Rust `Result` is `Except String`; a Rust panic (`unwrap`/index out of
  bounds) on a path a claim depends on is modelled with an outer `Option`
  (`none` = panic).
-/

/-- A numeric OpenCV `Mat`, row major, entries `f64` modelled as `ℚ`. -/
abbrev MatQ := List (List ℚ)

/-- `m.at_2d(r, c)` for an in-bounds access; out-of-bounds reads default to 0
(the source returns an error there; no claim exercises that path). -/
def matEntry (m : MatQ) (r c : ℕ) : ℚ := (m.getD r []).getD c 0

/-- A `Mat` whose row/column counts are tracked explicitly (the source checks
`rows()`/`cols()` on these), with a total entry function. -/
structure RMat where
  rows : ℕ
  cols : ℕ
  entry : ℕ → ℕ → ℚ
deriving Inhabited

/-- Build the `N×2 CV_64F` point `Mat` the source builds from a list of 2-D
points (`utils.rs::vector_point2f_to_mat` and the tables of
`gather_points_2d_from_matches`); unwritten entries keep `Mat::zeros`' zeros. -/
def listToRMat (pts : List (ℚ × ℚ)) : RMat where
  rows := pts.length
  cols := 2
  entry := fun r c =>
    if c = 0 then (pts.getD r (0, 0)).1 else if c = 1 then (pts.getD r (0, 0)).2 else 0

/-- `opencv::core::KeyPoint`, reduced to the fields the embedded code reads
(`pt().x`, `pt().y`). -/
structure KeyPoint where
  x : ℚ
  y : ℚ
deriving DecidableEq, Inhabited

/-- `opencv::core::DMatch`, the fields the embedded code reads. -/
structure DMatch where
  queryIdx : ℕ
  trainIdx : ℕ
  distance : ℚ
deriving DecidableEq, Inhabited

/-- `reconstruction.rs::Point3D`. -/
structure Point3D where
  x : ℚ
  y : ℚ
  z : ℚ
  color : Option (ℕ × ℕ × ℕ)
  trackId : Option ℕ
  confidence : ℚ
deriving DecidableEq, Inhabited

/-- `reconstruction.rs::PointCloud`. -/
structure PointCloud where
  points : List Point3D
  timestamp : ℕ
deriving DecidableEq, Inhabited

/-- `calibration.rs::CameraParameters`. -/
structure CameraParameters where
  intrinsic : MatQ
  distortion : MatQ
  rotation : MatQ
  translation : MatQ
  essential_matrix : MatQ
  fundamental_matrix : MatQ
deriving DecidableEq, Inhabited

/-- `Mat::eye(3, 3, CV_64F)`. -/
def eye3 : MatQ := [[1, 0, 0], [0, 1, 0], [0, 0, 1]]

/-- `Mat::zeros(3, 1, CV_64F)`. -/
def zero31 : MatQ := [[0], [0], [0]]

/-- `CameraParameters::new`: identity rotation, zero translation, all other
`Mat`s default (empty). -/
def CameraParameters.new : CameraParameters where
  intrinsic := []
  distortion := []
  rotation := eye3
  translation := zero31
  essential_matrix := []
  fundamental_matrix := []

/-- `opencv::core::hconcat2` specialised to the `[R | t]` concatenation in
`triangulate_points_multiple`. -/
def hconcat2 (a b : MatQ) : MatQ := a.zipWith (fun ra rb => ra ++ rb) b

/-- Plain matrix product, used to model `opencv::sfm::projection_from_k_rt`
(`P = K · [R | t]`). -/
def matMul (a b : MatQ) : MatQ :=
  a.map (fun row =>
    (List.range b.headI.length).map (fun j =>
      (row.enum.map (fun p => p.2 * matEntry b p.1 j)).sum))

/-- The 3×4 projection matrix `triangulate_points_multiple` builds for each
camera via `projection_from_k_rt(K, R, t)`. -/
def projectionMatrix (cam : CameraParameters) : MatQ :=
  matMul cam.intrinsic (hconcat2 cam.rotation cam.translation)

/-- Reprojection of a 3-D point through a 3×4 projection matrix, normalised by
the homogeneous coordinate (`reconstruction.rs` lines 196-218). -/
def projPoint (p : MatQ) (X : ℚ × ℚ × ℚ) : ℚ × ℚ :=
  let h : ℕ → ℚ := fun r =>
    matEntry p r 0 * X.1 + matEntry p r 1 * X.2.1 + matEntry p r 2 * X.2.2 + matEntry p r 3
  (h 0 / h 2, h 1 / h 2)

/-- Squared Euclidean pixel distance between the reprojection and the original
observation (the source takes `sqrt` of exactly this sum). -/
def reprojErrSq (p : MatQ) (X : ℚ × ℚ × ℚ) (obs : ℚ × ℚ) : ℚ :=
  ((projPoint p X).1 - obs.1) ^ 2 + ((projPoint p X).2 - obs.2) ^ 2

/-- Line 236 of `reconstruction.rs`:
`confidence = 1.0 - (avg_error / 5.0).min(1.0)`. -/
def confidence (avgError : ℚ) : ℚ := 1 - min (avgError / 5) 1

/-- The per-point mean reprojection error of `triangulate_points_multiple`
(lines 193-231): per-camera Euclidean distances summed over all cameras and
divided by `camera_params.len()`. -/
def meanReprojError (sqrtF : ℚ → ℚ) (projs : List MatQ) (tables : List RMat)
    (numCams : ℕ) (i : ℕ) (X : ℚ × ℚ × ℚ) : ℚ :=
  ((projs.zip tables).map
    (fun pt => sqrtF (reprojErrSq pt.1 X (pt.2.entry i 0, pt.2.entry i 1)))).sum / numCams

/-- The `Point3D` pushed for triangulated column `i`
(`reconstruction.rs` lines 187-243). -/
def scoredPoint (sqrtF : ℚ → ℚ) (projs : List MatQ) (tables : List RMat)
    (numCams : ℕ) (i : ℕ) (X : ℚ × ℚ × ℚ) : Point3D :=
  ⟨X.1, X.2.1, X.2.2, none, none,
    confidence (meanReprojError sqrtF projs tables numCams i X)⟩

/-- The size validation of `triangulate_points_multiple` (lines 67-102),
over the tables' dimensions; the source reports the first offending camera,
the `Except` value here only records that an error is returned. -/
def validateTriangulationInputs (points2d : List RMat) (numCams : ℕ) :
    Except String Unit :=
  if points2d.length < 2 ∨ numCams < 2 then
    .error "at least 2 cameras are required for triangulation"
  else if points2d.length ≠ numCams then
    .error "the number of point lists must match the number of cameras"
  else if points2d.all (fun t => t.rows = (points2d.headI).rows ∧ t.cols = 2) then
    .ok ()
  else
    .error "point matrix has wrong size"

/-- The preconditions of `triangulate_points_multiple` as the spec states
them. -/
def triangulationPreconditions (points2d : List RMat) (numCams : ℕ) : Prop :=
  2 ≤ points2d.length ∧ 2 ≤ numCams ∧ points2d.length = numCams ∧
    ∀ t ∈ points2d, t.rows = (points2d.headI).rows ∧ t.cols = 2

/-- The post-validation tail of `triangulate_points_multiple`: build the
projection matrices, hand the (transposed — a layout detail of the external
call) tables to `opencv::sfm::triangulate_points` (the oracle `ext`), then
score each returned 3-D point. -/
def triangulateAndScore
    (ext : List RMat → List MatQ → Except String (List (ℚ × ℚ × ℚ)))
    (sqrtF : ℚ → ℚ) (points2d : List RMat) (cams : List CameraParameters) :
    Except String (List Point3D) := do
  let projs := cams.map projectionMatrix
  let pts3d ← ext points2d projs
  .ok (pts3d.enum.map (fun p => scoredPoint sqrtF projs points2d cams.length p.1 p.2))

/-- `reconstruction.rs::triangulate_points_multiple`.  The identity/zero check
on camera 0 (lines 109-141) only emits a log warning and is not modelled. -/
def triangulate_points_multiple
    (ext : List RMat → List MatQ → Except String (List (ℚ × ℚ × ℚ)))
    (sqrtF : ℚ → ℚ) (points2d : List RMat) (cams : List CameraParameters) :
    Except String (List Point3D) :=
  match validateTriangulationInputs points2d cams.length with
  | .error e => .error e
  | .ok () => triangulateAndScore ext sqrtF points2d cams

/-! ## Common-visibility filter (`reconstruction.rs::min_visible_match_set`) -/

/-- A k-NN match group (`Vector<DMatch>`); the source reads its best match via
`m.get(0).unwrap()`, which panics on an empty group — the embedding totalises
with the `Inhabited` default, outside the function's real domain. -/
abbrev MatchGroup := List DMatch

/-- `query_idx` of a group's best match (`m.get(0).unwrap().query_idx`). -/
def bestQuery (g : MatchGroup) : ℕ := g.headI.queryIdx

/-- Lines 374-396: indices of reference keypoints that have a match entry in
every camera's sequence, in increasing order. -/
def commonPointsIndices (allMatches : List (List MatchGroup)) (numRef : ℕ) :
    List ℕ :=
  (List.range numRef).filter
    (fun i => allMatches.all (fun cm => cm.any (fun m => bestQuery m == i)))

/-- Lines 405-416: for each retained index, keep the first match found in the
camera's sequence. -/
def filterCameraMatches (common : List ℕ) (cm : List MatchGroup) :
    List MatchGroup :=
  common.filterMap (fun idx => cm.find? (fun m => bestQuery m == idx))

/-- `reconstruction.rs::min_visible_match_set`; `keypoints_list` enters only
through `keypoints_list[0].len()`. -/
def min_visible_match_set (allMatches : List (List MatchGroup))
    (keypointsList : List (List KeyPoint)) : List (List MatchGroup) :=
  allMatches.map
    (filterCameraMatches (commonPointsIndices allMatches keypointsList.headI.length))

/-! ## 2-D point gathering (`correspondence.rs::gather_points_2d_from_matches`) -/

/-- One `num_matches × 2` point table (lines 93-100 and 104-111): the table is
`Mat::zeros(num_matches, 2)`, then row `j` is written from match `j`'s
keypoint.  A camera sequence longer than `num_matches` would write out of
bounds (`at_2d` error); a missing keypoint index is the `get(...)?` error; an
empty match group is the `matches.get(0)?` error. -/
def tableFromMatches (numMatches : ℕ) (ms : List MatchGroup)
    (kps : List KeyPoint) (useTrain : Bool) : Except String RMat :=
  if numMatches < ms.length then .error "point index out of matrix bounds"
  else do
    let coords ← ms.mapM (fun g =>
      match g with
      | [] => Except.error "match group is empty"
      | m :: _ =>
        let idx := if useTrain then m.trainIdx else m.queryIdx
        match kps.get? idx with
        | some kp => Except.ok (kp.x, kp.y)
        | none => Except.error "keypoint index out of range")
    .ok { rows := numMatches, cols := 2,
          entry := fun r c =>
            match coords.get? r with
            | some xy => if c = 0 then xy.1 else if c = 1 then xy.2 else 0
            | none => 0 }

/-- `correspondence.rs::gather_points_2d_from_matches`.  The reference table
uses `query_idx` into `all_keypoints[0]`; table `i ≥ 1` uses `train_idx` of
`all_matches[i-1]` into `all_keypoints[i]`.  Rust's panicking indexing into
the two outer `Vec`s is totalised with `headI`/`getD` (the pipeline always
passes one match sequence per non-reference camera and one keypoint list per
camera). -/
def gather_points_2d_from_matches (allMatches : List (List MatchGroup))
    (allKeypoints : List (List KeyPoint)) : Except String (List RMat) := do
  let numMatches := allMatches.headI.length
  let t0 ← tableFromMatches numMatches allMatches.headI allKeypoints.headI false
  let rest ← (List.range allMatches.length).mapM (fun k =>
    tableFromMatches numMatches (allMatches.getD k []) (allKeypoints.getD (k + 1) []) true)
  .ok (t0 :: rest)

/-! ## Point-cloud colouring and filtering (`reconstruction.rs`) -/

/-- An image `Mat`: `pix r c` is the `Vec3b` BGR triple at row `r`, column
`c`. -/
structure ImageM where
  rows : ℕ
  cols : ℕ
  pix : ℕ → ℕ → ℕ × ℕ × ℕ

/-- Rust's `f64 as i32`: truncation toward zero (saturation at the `i32`
bounds never matters behind the image-bounds check that guards every use). -/
def ratTrunc (q : ℚ) : ℤ := if 0 ≤ q then ⌊q⌋ else -⌊-q⌋

/-- `reconstruction.rs::add_color_to_point_cloud` acting on `cloud.points`:
the sampling position of point `i` is row `i` of `distorted_points.get(0)`
(the first table of the passed point set), the colour is the image pixel
there, converted BGR → RGB.  The source's `unwrap`s (empty table vector, row
out of bounds) are totalised; the pipeline satisfies both. -/
def add_color_to_point_cloud (points : List Point3D)
    (distortedPoints : List RMat) (refImage : ImageM) : List Point3D :=
  points.enum.map (fun ip =>
    let t0 := distortedPoints.headI
    let x := ratTrunc (t0.entry ip.1 0)
    let y := ratTrunc (t0.entry ip.1 1)
    if 0 ≤ x ∧ 0 ≤ y ∧ x < (refImage.cols : ℤ) ∧ y < (refImage.rows : ℤ) then
      let c := refImage.pix y.toNat x.toNat
      { ip.2 with color := some (c.2.2, c.2.1, c.1) }
    else ip.2)

/-- `reconstruction.rs::filter_point_cloud_by_confindence` (sic):
`retain(|p| p.confidence >= threshold)`. -/
def filter_point_cloud_by_confindence (points : List Point3D)
    (threshold : ℚ) : List Point3D :=
  points.filter (fun p => threshold ≤ p.confidence)

/-! ## The temporal tracking loop body (`app.rs::run_pipeline`, lines 525-634)

For each frame `t ≥ 1`: optical flow per camera from the previous points,
conversion to a `Mat` and undistortion, re-triangulation over all cameras,
colour attachment, confidence filtering at 0.25.  The external primitives
(`calc_optical_flow_pyr_lk`, `undistort_points`) are the oracles `flow` and
`undistort`.  Crucially, the colour call passes `points_2d` — the frame-0
table variable, never reassigned inside the loop — together with `frames[0]`,
the current reference-camera image. -/
def trackingFrameCloud
    (ext : List RMat → List MatQ → Except String (List (ℚ × ℚ × ℚ)))
    (sqrtF : ℚ → ℚ)
    (cams : List CameraParameters)
    (points2d0 : List RMat)
    (prevPoints : List (List (ℚ × ℚ)))
    (flow : ℕ → List (ℚ × ℚ) → List (ℚ × ℚ))
    (undistort : ℕ → List (ℚ × ℚ) → List (ℚ × ℚ))
    (refImage : ImageM)
    (t : ℕ) :
    Except String (PointCloud × List (List (ℚ × ℚ))) := do
  let nextPoints := (List.range cams.length).map
    (fun ci => flow ci (prevPoints.getD ci []))
  let undistorted := (List.range cams.length).map
    (fun ci => listToRMat (undistort ci (nextPoints.getD ci [])))
  let pts3d ← triangulate_points_multiple ext sqrtF undistorted cams
  let colored := add_color_to_point_cloud pts3d points2d0 refImage
  .ok (⟨filter_point_cloud_by_confindence colored (1/4), t⟩, nextPoints)

/-! ## Calibration (`lib_cv/src/calibration.rs`) -/

/-- `calibration.rs::find_common_points`: intersection of fiducial-ID lists,
seeded from the first list, built as a `HashSet` (modelled as a `Finset`). -/
def find_common_points (frames : List (List ℤ)) : Finset ℤ :=
  match frames with
  | [] => ∅
  | f :: rest => rest.foldl (fun acc fr => acc ∩ fr.toFinset) f.toFinset

/-- Lines 248-257: positions (within an ID list) of the IDs that lie in the
common set, in increasing position order. -/
def positionsIn (ids : List ℤ) (common : Finset ℤ) : List ℕ :=
  ids.enum.filterMap (fun p => if p.2 ∈ common then some p.1 else none)

/-- `calibration.rs::select_rows`: pick the given rows of a matrix.  The
source copies into a zeroed destination; row indices are always in bounds at
the call sites (they are positions inside the matching ID list). -/
def select_rows (src : MatQ) (indices : List ℕ) : MatQ :=
  indices.map (fun r => src.getD r [])

/-- One accumulated calibration frame of one camera, grouping the aligned
entries of `all_charuco_ids`, `all_object_points`, `all_image_points` that
`calibrate_with_charuco` returns. -/
structure FrameData where
  ids : List ℤ
  obj : MatQ
  img : MatQ
deriving DecidableEq, Inhabited

/-- The outcome of `calibrate_with_charuco` for one image set that matters to
`calibrate_multiple_with_charuco`: the intrinsic matrix, the distortion
coefficients, and the per-frame fiducial observations. -/
structure SingleCalibResult where
  camera_matrix : MatQ
  dist_coeffs : MatQ
  frames : List FrameData
deriving DecidableEq, Inhabited

/-- Rows selected from one calibration frame for the stereo calibration of a
camera pair (lines 227-275): `none` when the frame is skipped because the two
cameras share fewer than 10 fiducial IDs, otherwise the object rows and both
cameras' image rows restricted to the common IDs. -/
def pairFrameRows (f0 fi : FrameData) : Option (MatQ × MatQ × MatQ) :=
  let common := find_common_points [f0.ids, fi.ids]
  if common.card < 10 then none
  else
    let idx1 := positionsIn f0.ids common
    let idx2 := positionsIn fi.ids common
    some (select_rows f0.obj idx1, select_rows f0.img idx1, select_rows fi.img idx2)

/-- The full frame-selection loop for the pair (reference, camera i): the
frame index runs over camera 0's frames, and `charuco_ids[i].get(frame_idx)?`
errors when camera i has fewer frames than the reference. -/
def stereoPairFrames (c0 ci : SingleCalibResult) :
    Except String (List (MatQ × MatQ × MatQ)) :=
  if ci.frames.length < c0.frames.length then .error "frame index out of range"
  else .ok ((c0.frames.zip ci.frames).filterMap (fun p => pairFrameRows p.1 p.2))

/-- `stereo_calibrate`'s outputs consumed by the caller. -/
structure StereoOut where
  r : MatQ
  t : MatQ
  e : MatQ
  f : MatQ
deriving DecidableEq, Inhabited

/-- `calibration.rs::calibrate_multiple_with_charuco`.

`setResults` holds, for each input image set, `some` of the per-camera
calibration outcome or `none` when `calibrate_with_charuco` failed (the
source logs and skips that camera).  `stereo` is the external
`stereo_calibrate` oracle for camera `i`, fed the three per-frame row lists.

The `Option` layer is `none` for the Rust panic when no per-camera
calibration succeeded (`camera_matrix[0]` on an empty vector).  The trailing
debug-only statistics (including a `debug!` that indexes `cameras[1]`) only
run when debug logging is enabled and are not modelled. -/
def calibrate_multiple_with_charuco
    (setResults : List (Option SingleCalibResult))
    (stereo : ℕ → List MatQ → List MatQ → List MatQ → Except String StereoOut) :
    Option (Except String (List CameraParameters)) :=
  if setResults.length < 2 then some (.ok []) else
  match setResults.filterMap id with
  | [] => none
  | c0 :: tail =>
    let cam0 : CameraParameters :=
      { CameraParameters.new with
          intrinsic := c0.camera_matrix, distortion := c0.dist_coeffs }
    let rest : Except String (List CameraParameters) :=
      tail.enum.mapM (fun (ki : ℕ × SingleCalibResult) => do
        let i := ki.1 + 1
        let ci := ki.2
        let frames ← stereoPairFrames c0 ci
        let s ← stereo i (frames.map (fun fr => fr.1)) (frames.map (fun fr => fr.2.1))
          (frames.map (fun fr => fr.2.2))
        Except.ok
          { intrinsic := ci.camera_matrix, distortion := ci.dist_coeffs,
            rotation := s.r, translation := s.t,
            essential_matrix := s.e, fundamental_matrix := s.f })
    match rest with
    | .error e => some (.error e)
    | .ok cams => some (.ok (cam0 :: cams))

/-! ## Calibration-parameter persistence (`calibration.rs::load_camera_parameters`)

The YAML `FileStorage` is modelled as an association list over the structured
key space the code actually formats (`camera_<i>_intrinsic` etc.); `get_node`
on an absent key yields an empty node, and `.mat()` on an empty node yields
the default empty `Mat`. -/

/-- The calibration-file key space. -/
inductive FSKey
  | intrinsic (i : ℕ)
  | distortion (i : ℕ)
  | rotation (i : ℕ)
  | translation (i : ℕ)
deriving DecidableEq

/-- The calibration file: key/value pairs. -/
abbrev FileStorageData := List (FSKey × MatQ)

/-- First value stored under a key, `none` when the node is absent/empty. -/
def fsRead : FileStorageData → FSKey → Option MatQ
  | [], _ => none
  | (k, v) :: rest, key => if k = key then some v else fsRead rest key

/-- The `CameraParameters` built for camera `i` in the load loop (lines
605-623): start from `CameraParameters::new`, overwrite intrinsic and
distortion, and read rotation/translation only for `i > 0`. -/
def loadCam (file : FileStorageData) (i : ℕ) : CameraParameters :=
  { CameraParameters.new with
      intrinsic := (fsRead file (.intrinsic i)).getD []
      distortion := (fsRead file (.distortion i)).getD []
      rotation := if 0 < i then (fsRead file (.rotation i)).getD [] else eye3
      translation := if 0 < i then (fsRead file (.translation i)).getD [] else zero31 }

/-- The unbounded `loop` of `load_camera_parameters`, with fuel.  The fuel
`file.length + 1` used below always suffices: `k` consecutive present
intrinsic keys are `k` distinct entries of the file. -/
def loadCamsLoop : ℕ → ℕ → FileStorageData → List CameraParameters
  | 0, _, _ => []
  | fuel + 1, i, file =>
    if (fsRead file (.intrinsic i)).isSome then
      loadCam file i :: loadCamsLoop fuel (i + 1) file
    else []

/-- `calibration.rs::load_camera_parameters`. -/
def load_camera_parameters (file : FileStorageData) :
    Except String (List CameraParameters) :=
  let cams := loadCamsLoop (file.length + 1) 0 file
  if cams.isEmpty then .error "failed to load parameters of any camera"
  else .ok cams

/-! ## Helper lemmas -/

lemma confidence_nonneg (e : ℚ) : 0 ≤ confidence e := by
  unfold confidence
  have h : min (e / 5) 1 ≤ 1 := min_le_right _ _
  linarith

lemma confidence_le_one {e : ℚ} (he : 0 ≤ e) : confidence e ≤ 1 := by
  unfold confidence
  have h : 0 ≤ min (e / 5) 1 := le_min (by positivity) (by norm_num)
  linarith

lemma confidence_antitone {e1 e2 : ℚ} (h : e1 ≤ e2) : confidence e2 ≤ confidence e1 := by
  unfold confidence
  have hdiv : e1 / 5 ≤ e2 / 5 := by linarith
  have := min_le_min hdiv (le_refl (1 : ℚ))
  linarith

lemma confidence_zero : confidence 0 = 1 := by norm_num [confidence]

lemma confidence_eq_zero {e : ℚ} (h : 5 ≤ e) : confidence e = 0 := by
  unfold confidence
  have h1 : (1 : ℚ) ≤ e / 5 := by linarith
  rw [min_eq_right h1]
  ring

lemma meanReprojError_nonneg (sqrtF : ℚ → ℚ) (hs : ∀ q, 0 ≤ sqrtF q)
    (projs : List MatQ) (tables : List RMat) (numCams i : ℕ) (X : ℚ × ℚ × ℚ) :
    0 ≤ meanReprojError sqrtF projs tables numCams i X := by
  unfold meanReprojError
  apply div_nonneg _ (by positivity)
  apply List.sum_nonneg
  intro q hq
  obtain ⟨pt, -, rfl⟩ := List.mem_map.mp hq
  exact hs _

/-- C1: the confidence `triangulate_points_multiple` attaches to a
triangulated point equals `1 - min(meanReprojectionError / 5, 1)` where the
mean reprojection error averages, over all cameras, the Euclidean pixel
distance between the homogeneous-normalised reprojection and the original
observation; consequently the confidence lies in `[0, 1]`, is monotonically
non-increasing in the mean error, equals 1 at mean error 0, and equals
exactly 0 for mean error at least 5. -/
theorem C1_confidence_formula (sqrtF : ℚ → ℚ) (hs : ∀ q, 0 ≤ sqrtF q)
    (projs : List MatQ) (tables : List RMat) (numCams i : ℕ) (X : ℚ × ℚ × ℚ) :
    (scoredPoint sqrtF projs tables numCams i X).confidence
        = 1 - min (meanReprojError sqrtF projs tables numCams i X / 5) 1
    ∧ 0 ≤ (scoredPoint sqrtF projs tables numCams i X).confidence
    ∧ (scoredPoint sqrtF projs tables numCams i X).confidence ≤ 1
    ∧ (∀ e1 e2 : ℚ, e1 ≤ e2 → confidence e2 ≤ confidence e1)
    ∧ (meanReprojError sqrtF projs tables numCams i X = 0 →
        (scoredPoint sqrtF projs tables numCams i X).confidence = 1)
    ∧ (5 ≤ meanReprojError sqrtF projs tables numCams i X →
        (scoredPoint sqrtF projs tables numCams i X).confidence = 0) := by
  have hm := meanReprojError_nonneg sqrtF hs projs tables numCams i X
  refine ⟨rfl, confidence_nonneg _, confidence_le_one hm,
    fun e1 e2 h => confidence_antitone h, fun h0 => ?_, fun h5 => ?_⟩
  · show confidence _ = 1
    rw [h0]; exact confidence_zero
  · exact confidence_eq_zero h5

theorem C1_confidence_formula_witness :
    (scoredPoint (fun _ => 0) [] [] 2 0 (0, 0, 0)).confidence = 1
    ∧ 0 ≤ (scoredPoint (fun _ => 0) [] [] 2 0 (0, 0, 0)).confidence := by
  have h := C1_confidence_formula (fun _ => 0) (fun q => le_refl 0) [] [] 2 0 (0, 0, 0)
  exact ⟨h.2.2.2.2.1 (by simp [meanReprojError]), h.2.1⟩

lemma validate_ok_iff (points2d : List RMat) (numCams : ℕ) :
    validateTriangulationInputs points2d numCams = .ok () ↔
      triangulationPreconditions points2d numCams := by
  unfold validateTriangulationInputs triangulationPreconditions
  split_ifs with h1 h2 h3
  · simp only [reduceCtorEq, false_iff]
    intro ⟨ha, hb, _⟩
    rcases h1 with h | h <;> omega
  · simp only [reduceCtorEq, false_iff]
    intro ⟨_, _, hc, _⟩
    exact h2 hc
  · push_neg at h1
    simp only [true_iff]
    refine ⟨h1.1, h1.2, by omega, ?_⟩
    intro t ht
    have := List.all_eq_true.mp h3 t ht
    simpa using this
  · simp only [reduceCtorEq, false_iff]
    intro ⟨_, _, _, hd⟩
    exact h3 (List.all_eq_true.mpr (fun t ht => by simpa using hd t ht))

/-- C2: `triangulate_points_multiple` returns an error from its own input
validation exactly when the preconditions are violated (fewer than 2 point
sets or cameras, count mismatch, or a point table that is not `N×2` with the
first table's row count `N`); whenever the preconditions all hold it
proceeds to the triangulation stage (`triangulateAndScore`, which invokes the
external triangulation routine). -/
theorem C2_precondition_validation
    (ext : List RMat → List MatQ → Except String (List (ℚ × ℚ × ℚ)))
    (sqrtF : ℚ → ℚ) (points2d : List RMat) (cams : List CameraParameters) :
    (¬ triangulationPreconditions points2d cams.length →
      ∃ msg, triangulate_points_multiple ext sqrtF points2d cams = .error msg)
    ∧ (triangulationPreconditions points2d cams.length →
      triangulate_points_multiple ext sqrtF points2d cams
        = triangulateAndScore ext sqrtF points2d cams) := by
  constructor
  · intro hpre
    unfold triangulate_points_multiple
    cases hv : validateTriangulationInputs points2d cams.length with
    | error e => exact ⟨e, rfl⟩
    | ok u =>
      cases u
      exact absurd ((validate_ok_iff _ _).mp hv) hpre
  · intro hpre
    unfold triangulate_points_multiple
    rw [(validate_ok_iff _ _).mpr hpre]

theorem C2_precondition_validation_witness :
    (∃ msg, triangulate_points_multiple (fun _ _ => .ok []) (fun q => q)
        [] [] = .error msg)
    ∧ triangulate_points_multiple (fun _ _ => .ok []) (fun q => q)
        [listToRMat [(0, 0)], listToRMat [(0, 0)]]
        [CameraParameters.new, CameraParameters.new]
      = triangulateAndScore (fun _ _ => .ok []) (fun q => q)
        [listToRMat [(0, 0)], listToRMat [(0, 0)]]
        [CameraParameters.new, CameraParameters.new] := by
  constructor
  · exact (C2_precondition_validation (fun _ _ => .ok []) (fun q => q) [] []).1
      (by intro ⟨ha, _⟩; simp at ha)
  · exact (C2_precondition_validation (fun _ _ => .ok []) (fun q => q)
      [listToRMat [(0, 0)], listToRMat [(0, 0)]]
      [CameraParameters.new, CameraParameters.new]).2
      (by
        constructor
        · simp
        refine ⟨by simp, by simp, ?_⟩
        intro t ht
        simp only [List.mem_cons, List.not_mem_nil, or_false] at ht
        rcases ht with rfl | rfl <;> simp [listToRMat])

/-- C10: with fewer than 2 image sets, `calibrate_multiple_with_charuco`
returns `Ok` with an empty camera list rather than an error, so the `Result`
variant alone cannot distinguish this configuration failure from success. -/
theorem C10_few_image_sets_ok_empty
    (setResults : List (Option SingleCalibResult))
    (stereo : ℕ → List MatQ → List MatQ → List MatQ → Except String StereoOut)
    (h : setResults.length < 2) :
    calibrate_multiple_with_charuco setResults stereo = some (.ok []) := by
  unfold calibrate_multiple_with_charuco
  rw [if_pos h]

theorem C10_few_image_sets_ok_empty_witness :
    calibrate_multiple_with_charuco [] (fun _ _ _ _ => .error "unused")
      = some (.ok []) :=
  C10_few_image_sets_ok_empty [] (fun _ _ _ _ => .error "unused") (by decide)

/-- C9: every successfully returned camera list — from
`calibrate_multiple_with_charuco` or from `load_camera_parameters` — has, at
index 0 (the reference camera), identity rotation and zero translation: the
calibrator builds camera 0 from `CameraParameters::new`'s defaults and the
loader never reads `camera_0_rotation`/`camera_0_translation`. -/
theorem C9_reference_camera_defaults :
    (∀ (setResults : List (Option SingleCalibResult))
        (stereo : ℕ → List MatQ → List MatQ → List MatQ → Except String StereoOut)
        (cams : List CameraParameters),
      calibrate_multiple_with_charuco setResults stereo = some (.ok cams) →
      ∀ c, cams.head? = some c → c.rotation = eye3 ∧ c.translation = zero31)
    ∧ (∀ (file : FileStorageData) (cams : List CameraParameters),
      load_camera_parameters file = .ok cams →
      ∀ c, cams.head? = some c → c.rotation = eye3 ∧ c.translation = zero31) := by
  constructor
  · intro setResults stereo cams hok c hc
    unfold calibrate_multiple_with_charuco at hok
    by_cases hlen : setResults.length < 2
    · rw [if_pos hlen] at hok
      injection hok with hok
      injection hok with hok
      subst hok
      simp at hc
    · rw [if_neg hlen] at hok
      cases hflt : setResults.filterMap id with
      | nil => rw [hflt] at hok; exact absurd hok (by simp)
      | cons c0 tail =>
        rw [hflt] at hok
        split at hok
        · exact absurd hok (by simp)
        · rename_i c1 tail1 heq
          injection heq with h1 h2
          subst h1
          subst h2
          dsimp only at hok
          split at hok
          · exact absurd hok (by simp)
          · injection hok with hok
            injection hok with hok
            subst hok
            simp only [List.head?_cons, Option.some.injEq] at hc
            subst hc
            exact ⟨rfl, rfl⟩
  · intro file cams hok c hc
    unfold load_camera_parameters at hok
    dsimp only at hok
    split_ifs at hok with hempty
    injection hok with hok
    subst hok
    have hfuel : ∃ fuel, file.length + 1 = fuel + 1 := ⟨file.length, rfl⟩
    obtain ⟨fuel, hf⟩ := hfuel
    rw [hf] at hempty hc
    by_cases hread : (fsRead file (.intrinsic 0)).isSome
    · rw [loadCamsLoop, if_pos hread] at hc
      simp only [List.head?_cons, Option.some.injEq] at hc
      subst hc
      exact ⟨rfl, rfl⟩
    · rw [loadCamsLoop, if_neg hread] at hempty
      exact absurd rfl hempty

theorem C9_reference_camera_defaults_witness :
    (loadCam [(FSKey.intrinsic 0, [[1]])] 0).rotation = eye3
    ∧ (loadCam [(FSKey.intrinsic 0, [[1]])] 0).translation = zero31 :=
  C9_reference_camera_defaults.2 [(FSKey.intrinsic 0, [[1]])]
    [loadCam [(FSKey.intrinsic 0, [[1]])] 0] rfl
    (loadCam [(FSKey.intrinsic 0, [[1]])] 0) rfl

lemma fsRead_isSome_mem (file : FileStorageData) (k : FSKey)
    (h : (fsRead file k).isSome) : k ∈ file.map Prod.fst := by
  induction file with
  | nil => simp [fsRead] at h
  | cons kv rest ih =>
    obtain ⟨k1, v1⟩ := kv
    by_cases hk : k1 = k
    · subst hk
      simp
    · rw [fsRead, if_neg hk] at h
      simpa using Or.inr (ih h)

lemma intrinsic_keys_le (file : FileStorageData) (k : ℕ)
    (h : ∀ j < k, (fsRead file (.intrinsic j)).isSome) : k ≤ file.length := by
  have hinj : Function.Injective (fun j => FSKey.intrinsic j) := by
    intro a b hab
    simpa using hab
  have hsub : (Finset.range k).image (fun j => FSKey.intrinsic j)
      ⊆ (file.map Prod.fst).toFinset := by
    intro x hx
    simp only [Finset.mem_image, Finset.mem_range] at hx
    obtain ⟨j, hj, rfl⟩ := hx
    exact List.mem_toFinset.mpr (fsRead_isSome_mem _ _ (h j hj))
  have h1 : ((Finset.range k).image (fun j => FSKey.intrinsic j)).card = k := by
    rw [Finset.card_image_of_injective _ hinj, Finset.card_range]
  have h2 := Finset.card_le_card hsub
  have h3 : (file.map Prod.fst).toFinset.card ≤ (file.map Prod.fst).length :=
    (file.map Prod.fst).toFinset_card_le
  rw [List.length_map] at h3
  omega

lemma loadCamsLoop_eq (file : FileStorageData) :
    ∀ (m fuel i : ℕ), m < fuel →
      (∀ j < m, (fsRead file (.intrinsic (i + j))).isSome) →
      fsRead file (.intrinsic (i + m)) = none →
      loadCamsLoop fuel i file = (List.range m).map (fun j => loadCam file (i + j)) := by
  intro m
  induction m with
  | zero =>
    intro fuel i hf _ hstop
    match fuel, hf with
    | fuel + 1, _ =>
      rw [loadCamsLoop, if_neg (by simp_all)]
      simp
  | succ m ih =>
    intro fuel i hf hpres hstop
    match fuel, hf with
    | fuel + 1, hf =>
      have h0 : (fsRead file (.intrinsic i)).isSome := by
        have := hpres 0 (Nat.succ_pos m)
        simpa using this
      have hrec := ih fuel (i + 1) (by omega)
        (fun j hj => by
          have := hpres (j + 1) (by omega)
          simpa [Nat.add_assoc, Nat.add_comm 1 j] using this)
        (by
          have : i + 1 + m = i + (m + 1) := by omega
          rw [this]
          exact hstop)
      rw [loadCamsLoop, if_pos h0, hrec, List.range_succ_eq_map]
      simp only [List.map_cons, List.map_map, Nat.add_zero]
      congr 1
      apply List.map_congr_left
      intro j _
      simp only [Function.comp_apply]
      congr 1
      omega

/-- C6: `load_camera_parameters` reads cameras in index order from 0 and
stops at the first index `k` whose `camera_<k>_intrinsic` key is absent,
returning the cameras read before that point (in particular a file with
`camera_0_*` present but `camera_1_intrinsic` absent yields exactly one
camera), and it returns an error precisely when zero cameras were loaded. -/
theorem C6_load_stops_at_first_missing (file : FileStorageData) (k : ℕ)
    (hpres : ∀ j < k, (fsRead file (.intrinsic j)).isSome)
    (hstop : fsRead file (.intrinsic k) = none) :
    (k = 0 → ∃ msg, load_camera_parameters file = .error msg)
    ∧ (0 < k → load_camera_parameters file
        = .ok ((List.range k).map (fun j => loadCam file j))) := by
  have hk : k ≤ file.length := intrinsic_keys_le file k hpres
  have hloop : loadCamsLoop (file.length + 1) 0 file
      = (List.range k).map (fun j => loadCam file j) := by
    have := loadCamsLoop_eq file k (file.length + 1) 0 (by omega)
      (fun j hj => by simpa using hpres j hj) (by simpa using hstop)
    simpa using this
  constructor
  · rintro rfl
    refine ⟨"failed to load parameters of any camera", ?_⟩
    unfold load_camera_parameters
    rw [hloop]
    simp
  · intro hk0
    unfold load_camera_parameters
    rw [hloop]
    have hne : ((List.range k).map (fun j => loadCam file j)).isEmpty = false := by
      simp only [List.isEmpty_eq_false_iff_exists_mem]
      exact ⟨loadCam file 0, List.mem_map_of_mem _ (List.mem_range.mpr hk0)⟩
    dsimp only
    rw [hne]
    simp

theorem C6_load_stops_at_first_missing_witness :
    load_camera_parameters [(FSKey.intrinsic 0, [[1]]), (FSKey.distortion 0, [[0]])]
      = .ok [loadCam [(FSKey.intrinsic 0, [[1]]), (FSKey.distortion 0, [[0]])] 0] := by
  have h := (C6_load_stops_at_first_missing
    [(FSKey.intrinsic 0, [[1]]), (FSKey.distortion 0, [[0]])] 1
    (by
      intro j hj
      interval_cases j
      decide)
    (by decide)).2 (by decide)
  simpa using h

lemma mem_foldl_inter (rest : List (List ℤ)) (acc : Finset ℤ) (x : ℤ) :
    x ∈ rest.foldl (fun a fr => a ∩ fr.toFinset) acc ↔
      x ∈ acc ∧ ∀ fr ∈ rest, x ∈ fr := by
  induction rest generalizing acc with
  | nil => simp
  | cons f rest ih =>
    rw [List.foldl_cons, ih]
    simp only [Finset.mem_inter, List.mem_toFinset, List.mem_cons]
    constructor
    · rintro ⟨⟨ha, hf⟩, hrest⟩
      exact ⟨ha, fun fr hfr => by rcases hfr with rfl | hfr; exact hf; exact hrest fr hfr⟩
    · rintro ⟨ha, hall⟩
      exact ⟨⟨ha, hall f (Or.inl rfl)⟩, fun fr hfr => hall fr (Or.inr hfr)⟩

/-- C5: `find_common_points` returns exactly the set intersection of the
given fiducial-ID lists — membership holds iff the list of lists is nonempty
and the ID occurs in every list; on `[1,2,3,5]` and `[2,3,5,8]` it returns
exactly `{2,3,5}`, and on no lists it returns the empty set — and, in the
pairwise extrinsic step of `calibrate_multiple_with_charuco`, a calibration
frame whose common-ID set has fewer than 10 elements is skipped and
contributes zero object/image-point rows to that pair's stereo calibration. -/
theorem C5_find_common_points :
    (∀ (frames : List (List ℤ)) (x : ℤ),
      x ∈ find_common_points frames ↔ frames ≠ [] ∧ ∀ f ∈ frames, x ∈ f)
    ∧ find_common_points [[1, 2, 3, 5], [2, 3, 5, 8]] = ({2, 3, 5} : Finset ℤ)
    ∧ find_common_points [] = (∅ : Finset ℤ)
    ∧ (∀ f0 fi : FrameData, (find_common_points [f0.ids, fi.ids]).card < 10 →
        pairFrameRows f0 fi = none
        ∧ ∀ l1 l2 : List (FrameData × FrameData),
            (l1 ++ (f0, fi) :: l2).filterMap (fun p => pairFrameRows p.1 p.2)
              = (l1 ++ l2).filterMap (fun p => pairFrameRows p.1 p.2)) := by
  refine ⟨?_, by decide, rfl, ?_⟩
  · intro frames x
    cases frames with
    | nil => simp [find_common_points]
    | cons f rest =>
      rw [find_common_points, mem_foldl_inter]
      simp only [List.mem_toFinset, List.mem_cons, ne_eq, reduceCtorEq,
        not_false_eq_true, true_and]
      constructor
      · rintro ⟨hf, hrest⟩
        intro fr hfr
        rcases hfr with rfl | hfr
        · exact hf
        · exact hrest fr hfr
      · intro hall
        exact ⟨hall f (Or.inl rfl), fun fr hfr => hall fr (Or.inr hfr)⟩
  · intro f0 fi hcard
    have hnone : pairFrameRows f0 fi = none := by
      unfold pairFrameRows
      rw [if_pos hcard]
    refine ⟨hnone, ?_⟩
    intro l1 l2
    rw [List.filterMap_append, List.filterMap_append, List.filterMap_cons, hnone]

theorem C5_find_common_points_witness :
    pairFrameRows ⟨[1], [[0]], [[0]]⟩ ⟨[1], [[0]], [[0]]⟩ = none :=
  (C5_find_common_points.2.2.2 ⟨[1], [[0]], [[0]]⟩ ⟨[1], [[0]], [[0]]⟩ (by decide)).1

lemma mem_commonPointsIndices (a : List (List MatchGroup)) (n i : ℕ) :
    i ∈ commonPointsIndices a n ↔
      i < n ∧ ∀ cm ∈ a, ∃ m ∈ cm, bestQuery m = i := by
  simp [commonPointsIndices, List.mem_filter, List.all_eq_true, List.any_eq_true]

lemma commonPointsIndices_sorted (a : List (List MatchGroup)) (n : ℕ) :
    (commonPointsIndices a n).Pairwise (· < ·) :=
  List.Pairwise.filter _ (List.pairwise_lt_range n)

lemma find?_bestQuery_some {cm : List MatchGroup} {idx : ℕ}
    (h : ∃ m ∈ cm, bestQuery m = idx) :
    ∃ g, cm.find? (fun m => bestQuery m == idx) = some g ∧ bestQuery g = idx := by
  have hs : (cm.find? (fun m => bestQuery m == idx)).isSome := by
    rw [List.find?_isSome]
    obtain ⟨m, hm, hq⟩ := h
    exact ⟨m, hm, by simp [hq]⟩
  obtain ⟨g, hg⟩ := Option.isSome_iff_exists.mp hs
  refine ⟨g, hg, ?_⟩
  have := List.find?_some hg
  simpa using this

lemma filterCameraMatches_map (cm : List MatchGroup) :
    ∀ common : List ℕ, (∀ idx ∈ common, ∃ m ∈ cm, bestQuery m = idx) →
      (filterCameraMatches common cm).map bestQuery = common := by
  intro common
  induction common with
  | nil => intro _; rfl
  | cons idx rest ih =>
    intro h
    obtain ⟨g, hg, hq⟩ := find?_bestQuery_some (h idx (List.mem_cons_self _ _))
    have hrest := ih (fun j hj => h j (List.mem_cons_of_mem _ hj))
    have hcons : filterCameraMatches (idx :: rest) cm
        = g :: filterCameraMatches rest cm := by
      simp [filterCameraMatches, List.filterMap_cons, hg]
    rw [hcons, List.map_cons, hq, hrest]

lemma filterCameraMatches_self (ys : List MatchGroup)
    (hnd : (ys.map bestQuery).Nodup) :
    filterCameraMatches (ys.map bestQuery) ys = ys := by
  induction ys with
  | nil => rfl
  | cons y ys ih =>
    rw [List.map_cons] at hnd
    obtain ⟨hnotin, hnd2⟩ := List.nodup_cons.mp hnd
    have hhd : (y :: ys).find? (fun m => bestQuery m == bestQuery y) = some y :=
      List.find?_cons_of_pos _ (by simp)
    have htail : ∀ idx ∈ ys.map bestQuery,
        ((y :: ys).find? (fun m => bestQuery m == idx))
          = ys.find? (fun m => bestQuery m == idx) := by
      intro idx hidx
      refine List.find?_cons_of_neg _ ?_
      simp only [beq_iff_eq]
      intro e
      exact hnotin (e ▸ hidx)
    rw [List.map_cons]
    unfold filterCameraMatches
    rw [List.filterMap_cons, hhd]
    have hcongr : (ys.map bestQuery).filterMap
          (fun idx => (y :: ys).find? (fun m => bestQuery m == idx))
        = (ys.map bestQuery).filterMap
          (fun idx => ys.find? (fun m => bestQuery m == idx)) :=
      List.filterMap_congr htail
    rw [hcongr]
    have := ih hnd2
    unfold filterCameraMatches at this
    rw [this]

lemma filter_filterCameraMatches (cm : List MatchGroup) :
    ∀ common : List ℕ, (∀ j ∈ common, ∃ m ∈ cm, bestQuery m = j) →
      common.Nodup → ∀ idx ∈ common,
      (filterCameraMatches common cm).filter (fun g => bestQuery g == idx)
        = (cm.find? (fun g => bestQuery g == idx)).toList := by
  intro common
  induction common with
  | nil =>
    intro _ _ idx hidx
    exact absurd hidx (List.not_mem_nil idx)
  | cons j rest ih =>
    intro h hnd idx hidx
    obtain ⟨g, hg, hq⟩ := find?_bestQuery_some (h j (List.mem_cons_self _ _))
    have hcons : filterCameraMatches (j :: rest) cm
        = g :: filterCameraMatches rest cm := by
      simp [filterCameraMatches, List.filterMap_cons, hg]
    obtain ⟨hjnotin, hnd2⟩ := List.nodup_cons.mp hnd
    have hall2 := fun j2 hj2 => h j2 (List.mem_cons_of_mem _ hj2)
    rcases List.mem_cons.mp hidx with rfl | hidx2
    · have hmap := filterCameraMatches_map cm rest hall2
      have hzero : (filterCameraMatches rest cm).filter
          (fun g2 => bestQuery g2 == idx) = [] := by
        rw [List.filter_eq_nil_iff]
        intro g2 hg2
        have hmem : bestQuery g2 ∈ rest := by
          rw [← hmap]
          exact List.mem_map_of_mem _ hg2
        simp only [beq_iff_eq]
        intro e
        exact hjnotin (e ▸ hmem)
      rw [hcons, List.filter_cons, hg]
      simp [hq, hzero]
    · have hne : ¬ (bestQuery g == idx) = true := by
        simp only [beq_iff_eq, hq]
        intro e
        exact hjnotin (e ▸ hidx2)
      rw [hcons, List.filter_cons, if_neg hne]
      exact ih hall2 hnd2 idx hidx2

/-- C3: the common-visibility filter returns one filtered sequence per
camera; a reference feature index (below the reference keypoint count) is
retained iff every camera's input sequence has a match entry whose best
match carries that query index; every output sequence lists exactly the
retained indices, in increasing order and at identical positions across
cameras; and for each retained index a camera's output keeps exactly one
match — the first one found in that camera's input sequence. -/
theorem C3_common_visibility_filter (allMatches : List (List MatchGroup))
    (keypointsList : List (List KeyPoint)) :
    (min_visible_match_set allMatches keypointsList).length = allMatches.length
    ∧ (∀ i < keypointsList.headI.length,
        (i ∈ commonPointsIndices allMatches keypointsList.headI.length ↔
          ∀ cm ∈ allMatches, ∃ m ∈ cm, bestQuery m = i))
    ∧ (∀ oc ∈ min_visible_match_set allMatches keypointsList,
        oc.map bestQuery = commonPointsIndices allMatches keypointsList.headI.length)
    ∧ (commonPointsIndices allMatches keypointsList.headI.length).Pairwise (· < ·)
    ∧ (∀ k, k < allMatches.length →
        ∀ idx ∈ commonPointsIndices allMatches keypointsList.headI.length,
        ((min_visible_match_set allMatches keypointsList).getD k []).filter
            (fun g => bestQuery g == idx)
          = ((allMatches.getD k []).find? (fun g => bestQuery g == idx)).toList) := by
  refine ⟨by simp [min_visible_match_set], ?_, ?_, commonPointsIndices_sorted _ _, ?_⟩
  · intro i hi
    rw [mem_commonPointsIndices]
    simp [hi]
  · intro oc hoc
    obtain ⟨cm, hcm, rfl⟩ := List.mem_map.mp hoc
    exact filterCameraMatches_map cm _
      (fun idx hidx => ((mem_commonPointsIndices _ _ _).mp hidx).2 cm hcm)
  · intro k hk idx hidx
    have hnd : (commonPointsIndices allMatches keypointsList.headI.length).Nodup :=
      (commonPointsIndices_sorted _ _).imp Nat.ne_of_lt
    have hk2 : k < (min_visible_match_set allMatches keypointsList).length := by
      simpa [min_visible_match_set] using hk
    have hget : (min_visible_match_set allMatches keypointsList).getD k []
        = filterCameraMatches
            (commonPointsIndices allMatches keypointsList.headI.length)
            (allMatches.getD k []) := by
      rw [List.getD_eq_getElem _ _ hk2, List.getD_eq_getElem _ _ hk]
      simp [min_visible_match_set]
    rw [hget]
    have hmem : allMatches.getD k [] ∈ allMatches := by
      rw [List.getD_eq_getElem _ _ hk]
      exact List.getElem_mem _
    exact filter_filterCameraMatches (allMatches.getD k []) _
      (fun j hj => ((mem_commonPointsIndices _ _ _).mp hj).2 _ hmem) hnd idx hidx

theorem C3_common_visibility_filter_witness :
    (min_visible_match_set [[[⟨0, 0, 0⟩], [⟨1, 1, 0⟩]], [[⟨1, 2, 0⟩]]]
        [[⟨0, 0⟩, ⟨1, 1⟩], [⟨2, 2⟩, ⟨3, 3⟩], [⟨4, 4⟩]]).length = 2
    ∧ (1 ∈ commonPointsIndices [[[⟨0, 0, 0⟩], [⟨1, 1, 0⟩]], [[⟨1, 2, 0⟩]]] 2 ↔
        ∀ cm ∈ [[[(⟨0, 0, 0⟩ : DMatch)], [⟨1, 1, 0⟩]], [[⟨1, 2, 0⟩]]],
          ∃ m ∈ cm, bestQuery m = 1) := by
  have h := C3_common_visibility_filter
    [[[⟨0, 0, 0⟩], [⟨1, 1, 0⟩]], [[⟨1, 2, 0⟩]]]
    [[⟨0, 0⟩, ⟨1, 1⟩], [⟨2, 2⟩, ⟨3, 3⟩], [⟨4, 4⟩]]
  exact ⟨h.1, h.2.1 1 (by decide)⟩

/-- C8: the common-visibility filter is idempotent — applying
`min_visible_match_set` to its own output (with the same keypoint lists)
returns that output unchanged, camera by camera and match by match. -/
theorem C8_min_visible_idempotent (allMatches : List (List MatchGroup))
    (keypointsList : List (List KeyPoint)) :
    min_visible_match_set (min_visible_match_set allMatches keypointsList)
        keypointsList
      = min_visible_match_set allMatches keypointsList := by
  have hall : ∀ cm ∈ allMatches,
      ∀ idx ∈ commonPointsIndices allMatches keypointsList.headI.length,
      ∃ m ∈ cm, bestQuery m = idx :=
    fun cm hcm idx hidx => ((mem_commonPointsIndices _ _ _).mp hidx).2 cm hcm
  have hmap : ∀ cm ∈ allMatches,
      (filterCameraMatches (commonPointsIndices allMatches keypointsList.headI.length)
          cm).map bestQuery
        = commonPointsIndices allMatches keypointsList.headI.length :=
    fun cm hcm => filterCameraMatches_map cm _ (fun idx hidx => hall cm hcm idx hidx)
  have hnd : (commonPointsIndices allMatches keypointsList.headI.length).Nodup :=
    (commonPointsIndices_sorted _ _).imp Nat.ne_of_lt
  have hboole : ∀ x y : Bool, (x = true ↔ y = true) → x = y := by decide
  have hcommon2 : commonPointsIndices
        (min_visible_match_set allMatches keypointsList) keypointsList.headI.length
      = commonPointsIndices allMatches keypointsList.headI.length := by
    unfold commonPointsIndices
    apply List.filter_congr
    intro i hi
    have hi2 : i < keypointsList.headI.length := List.mem_range.mp hi
    apply hboole
    simp only [List.all_eq_true, List.any_eq_true, beq_iff_eq]
    constructor
    · intro h cm hcm
      have hout := h (filterCameraMatches
          (commonPointsIndices allMatches keypointsList.headI.length) cm)
        (by
          unfold min_visible_match_set
          exact List.mem_map_of_mem _ hcm)
      obtain ⟨m, hm, hq⟩ := hout
      have hmem : bestQuery m
          ∈ commonPointsIndices allMatches keypointsList.headI.length := by
        rw [← hmap cm hcm]
        exact List.mem_map_of_mem _ hm
      rw [hq] at hmem
      exact ((mem_commonPointsIndices _ _ _).mp hmem).2 cm hcm
    · intro h oc hoc
      unfold min_visible_match_set at hoc
      obtain ⟨cm, hcm, rfl⟩ := List.mem_map.mp hoc
      have hic : i ∈ commonPointsIndices allMatches keypointsList.headI.length :=
        (mem_commonPointsIndices _ _ _).mpr ⟨hi2, h⟩
      have : i ∈ (filterCameraMatches
          (commonPointsIndices allMatches keypointsList.headI.length) cm).map
            bestQuery := by
        rw [hmap cm hcm]
        exact hic
      obtain ⟨m, hm, hq⟩ := List.mem_map.mp this
      exact ⟨m, hm, hq⟩
  have hfix : ∀ oc ∈ min_visible_match_set allMatches keypointsList,
      filterCameraMatches
          (commonPointsIndices allMatches keypointsList.headI.length) oc
        = oc := by
    intro oc hoc
    unfold min_visible_match_set at hoc
    obtain ⟨cm, hcm, rfl⟩ := List.mem_map.mp hoc
    have hm := hmap cm hcm
    calc filterCameraMatches
          (commonPointsIndices allMatches keypointsList.headI.length)
          (filterCameraMatches
            (commonPointsIndices allMatches keypointsList.headI.length) cm)
        = filterCameraMatches
            ((filterCameraMatches
              (commonPointsIndices allMatches keypointsList.headI.length) cm).map
                bestQuery)
            (filterCameraMatches
              (commonPointsIndices allMatches keypointsList.headI.length) cm) := by
          rw [hm]
      _ = filterCameraMatches
            (commonPointsIndices allMatches keypointsList.headI.length) cm :=
          filterCameraMatches_self _ (by rw [hm]; exact hnd)
  conv_lhs => rw [min_visible_match_set]
  rw [hcommon2]
  calc (min_visible_match_set allMatches keypointsList).map
        (filterCameraMatches
          (commonPointsIndices allMatches keypointsList.headI.length))
      = (min_visible_match_set allMatches keypointsList).map id :=
        List.map_congr_left hfix
    _ = min_visible_match_set allMatches keypointsList := List.map_id _

/-- C4: evidence that the pipeline does NOT stop on an empty
common-visibility intersection.  With 2 cameras, one reference keypoint and
an empty match sequence for the non-reference camera, the intersection is
empty; `min_visible_match_set` returns an empty sequence,
`gather_points_2d_from_matches` succeeds with two 0×2 tables, the size
validation of `triangulate_points_multiple` accepts them, and the function
proceeds to invoke the external triangulation (here returning an empty
result) — no "no common points" error is raised anywhere before
triangulation. -/
theorem C4_empty_intersection_reaches_triangulation :
    commonPointsIndices [[]] 1 = []
    ∧ min_visible_match_set [[]] [[⟨0, 0⟩], [⟨0, 0⟩]] = [[]]
    ∧ ∃ t0 t1 : RMat,
        gather_points_2d_from_matches [[]] [[⟨0, 0⟩], [⟨0, 0⟩]] = .ok [t0, t1]
        ∧ t0.rows = 0 ∧ t1.rows = 0
        ∧ validateTriangulationInputs [t0, t1] 2 = .ok ()
        ∧ triangulate_points_multiple (fun _ _ => .ok []) (fun q => q) [t0, t1]
            [CameraParameters.new, CameraParameters.new] = .ok [] := by
  exact ⟨rfl, rfl, _, _, rfl, rfl, rfl, rfl, rfl⟩

/-! ## Concrete data for exercising the tracking-loop colour step -/

/-- A 2×2 reference image whose pixels all differ (BGR triple `(10r+c, 0, 0)`). -/
def exImage : ImageM := ⟨2, 2, fun r c => (r * 10 + c, 0, 0)⟩

def exCams : List CameraParameters := [CameraParameters.new, CameraParameters.new]

/-- Frame-0 point tables: the single reference point was observed at (0,0). -/
def exTables0 : List RMat := [listToRMat [(0, 0)], listToRMat [(0, 0)]]

def exPrev : List (List (ℚ × ℚ)) := [[(0, 0)], [(0, 0)]]

/-- Optical-flow oracle: the point has moved to (1,0) in every camera. -/
def exFlow : ℕ → List (ℚ × ℚ) → List (ℚ × ℚ) := fun _ _ => [(1, 0)]

def exUndist : ℕ → List (ℚ × ℚ) → List (ℚ × ℚ) := fun _ pts => pts

def exExt : List RMat → List MatQ → Except String (List (ℚ × ℚ × ℚ)) :=
  fun _ _ => .ok [(0, 0, 1)]

/-- The `Point3D` produced for the single tracked point in the scenario
above. -/
def exPt : Point3D :=
  scoredPoint (fun _ => 0) (exCams.map projectionMatrix)
    [listToRMat [(1, 0)], listToRMat [(1, 0)]] 2 0 (0, 0, 1)

/-- C7 counterexample: in the tracking loop the point has been tracked to
(1,0) (and `next` records that), yet the colour attached to the produced
cloud's point is the current image's pixel at the frame-0 position (0,0) —
`(0,0,0)` — and differs from the pixel at the tracked position (1,0).  So
the colour is NOT sampled at the point's current tracked 2-D position. -/
theorem C7_color_not_from_tracked_position :
    ∃ cloud next,
      trackingFrameCloud exExt (fun _ => 0) exCams exTables0 exPrev exFlow
          exUndist exImage 1
        = .ok (cloud, next)
      ∧ next.headI.headI = ((1 : ℚ), (0 : ℚ))
      ∧ cloud.points.headI.color = some (0, 0, 0)
      ∧ cloud.points.headI.color
          ≠ some ((exImage.pix 0 1).2.2, (exImage.pix 0 1).2.1, (exImage.pix 0 1).1) := by
  have hcol : add_color_to_point_cloud [exPt] exTables0 exImage
      = [{ exPt with color := some (0, 0, 0) }] := by
    unfold add_color_to_point_cloud
    norm_num [exTables0, listToRMat, ratTrunc, exImage]
  have hmean : meanReprojError (fun _ => 0) (exCams.map projectionMatrix)
      [listToRMat [(1, 0)], listToRMat [(1, 0)]] 2 0 (0, 0, 1) = 0 := by
    simp [meanReprojError]
  have hconf : (1 : ℚ) / 4 ≤ exPt.confidence := by
    show (1 : ℚ) / 4 ≤ confidence (meanReprojError (fun _ => 0)
      (exCams.map projectionMatrix) [listToRMat [(1, 0)], listToRMat [(1, 0)]] 2 0 (0, 0, 1))
    rw [hmean, confidence_zero]
    norm_num
  have hfilter : filter_point_cloud_by_confindence
      [{ exPt with color := some (0, 0, 0) }] (1 / 4)
      = [{ exPt with color := some (0, 0, 0) }] := by
    unfold filter_point_cloud_by_confindence
    rw [List.filter_cons]
    have hc3 : (4 : ℚ)⁻¹ ≤ exPt.confidence := by linarith [hconf]
    simp [hc3]
  have h1 : trackingFrameCloud exExt (fun _ => 0) exCams exTables0 exPrev exFlow
      exUndist exImage 1
      = .ok (⟨filter_point_cloud_by_confindence
          (add_color_to_point_cloud [exPt] exTables0 exImage) (1 / 4), 1⟩,
        [[(1, 0)], [(1, 0)]]) := rfl
  refine ⟨⟨[{ exPt with color := some (0, 0, 0) }], 1⟩, [[(1, 0)], [(1, 0)]],
    ?_, rfl, rfl, by decide⟩
  rw [h1, hcol, hfilter]

/-- C7 (amended): in the temporal tracking loop, the frame-t cloud (t ≥ 1)
is coloured by `add_color_to_point_cloud` applied to the frame-0 point-table
variable `points_2d` — which the loop never updates — together with the
reference camera's current frame-t image; and `add_color_to_point_cloud`
samples the colour of point `i` from the image at the (truncated) frame-0
position in row `i` of the first table, when that position lies inside the
image bounds, leaving the colour unchanged otherwise. -/
theorem C7_color_from_frame0_positions :
    (∀ (ext : List RMat → List MatQ → Except String (List (ℚ × ℚ × ℚ)))
        (sqrtF : ℚ → ℚ) (cams : List CameraParameters) (points2d0 : List RMat)
        (prevPoints : List (List (ℚ × ℚ)))
        (flow undistort : ℕ → List (ℚ × ℚ) → List (ℚ × ℚ))
        (refImage : ImageM) (t : ℕ) (cloud : PointCloud)
        (next : List (List (ℚ × ℚ))),
      trackingFrameCloud ext sqrtF cams points2d0 prevPoints flow undistort
          refImage t = .ok (cloud, next) →
      ∃ pts3d, triangulate_points_multiple ext sqrtF
            ((List.range cams.length).map (fun ci =>
              listToRMat (undistort ci
                (((List.range cams.length).map
                  (fun cj => flow cj (prevPoints.getD cj []))).getD ci []))))
            cams = .ok pts3d
        ∧ cloud.points = filter_point_cloud_by_confindence
            (add_color_to_point_cloud pts3d points2d0 refImage) (1 / 4)
        ∧ cloud.timestamp = t)
    ∧ (∀ (points : List Point3D) (dist : List RMat) (img : ImageM) (i : ℕ),
        i < points.length →
        ((add_color_to_point_cloud points dist img).getD i default).color =
          if 0 ≤ ratTrunc ((dist.headI).entry i 0)
              ∧ 0 ≤ ratTrunc ((dist.headI).entry i 1)
              ∧ ratTrunc ((dist.headI).entry i 0) < (img.cols : ℤ)
              ∧ ratTrunc ((dist.headI).entry i 1) < (img.rows : ℤ) then
            some ((img.pix (ratTrunc ((dist.headI).entry i 1)).toNat
                    (ratTrunc ((dist.headI).entry i 0)).toNat).2.2,
                  (img.pix (ratTrunc ((dist.headI).entry i 1)).toNat
                    (ratTrunc ((dist.headI).entry i 0)).toNat).2.1,
                  (img.pix (ratTrunc ((dist.headI).entry i 1)).toNat
                    (ratTrunc ((dist.headI).entry i 0)).toNat).1)
          else (points.getD i default).color) := by
  constructor
  · intro ext sqrtF cams points2d0 prevPoints flow undistort refImage t cloud next h
    unfold trackingFrameCloud at h
    dsimp only at h
    cases htri : triangulate_points_multiple ext sqrtF
        ((List.range cams.length).map (fun ci =>
          listToRMat (undistort ci
            (((List.range cams.length).map
              (fun cj => flow cj (prevPoints.getD cj []))).getD ci []))))
        cams with
    | error e =>
      rw [htri] at h
      simp only [Bind.bind, Except.bind] at h
      exact Except.noConfusion h
    | ok pts3d =>
      rw [htri] at h
      simp only [Bind.bind, Except.bind, Except.ok.injEq, Prod.mk.injEq] at h
      obtain ⟨hcl, hnx⟩ := h
      exact ⟨pts3d, rfl, by rw [← hcl], by rw [← hcl]⟩
  · intro points dist img i hi
    have hi2 : i < (points.enum.map (fun ip =>
        let t0 := dist.headI
        let x := ratTrunc (t0.entry ip.1 0)
        let y := ratTrunc (t0.entry ip.1 1)
        if 0 ≤ x ∧ 0 ≤ y ∧ x < (img.cols : ℤ) ∧ y < (img.rows : ℤ) then
          { ip.2 with color := some ((img.pix y.toNat x.toNat).2.2,
              (img.pix y.toNat x.toNat).2.1, (img.pix y.toNat x.toNat).1) }
        else ip.2)).length := by
      simpa using hi
    unfold add_color_to_point_cloud
    rw [List.getD_eq_getElem _ _ hi2, List.getElem_map, List.getElem_enum,
      List.getD_eq_getElem _ _ hi]
    by_cases hb : 0 ≤ ratTrunc ((dist.headI).entry i 0)
        ∧ 0 ≤ ratTrunc ((dist.headI).entry i 1)
        ∧ ratTrunc ((dist.headI).entry i 0) < (img.cols : ℤ)
        ∧ ratTrunc ((dist.headI).entry i 1) < (img.rows : ℤ)
    · rw [if_pos hb]
      dsimp only
      rw [if_pos hb]
    · rw [if_neg hb]
      dsimp only
      rw [if_neg hb]

theorem C7_color_from_frame0_positions_witness :
    (∃ pts3d, triangulate_points_multiple exExt (fun _ => 0)
          ((List.range exCams.length).map (fun ci =>
            listToRMat (exUndist ci
              (((List.range exCams.length).map
                (fun cj => exFlow cj (exPrev.getD cj []))).getD ci []))))
          exCams = .ok pts3d)
    ∧ ((add_color_to_point_cloud [default] [listToRMat [(0, 0)]] exImage).getD 0
        default).color = some (0, 0, 0) := by
  constructor
  · obtain ⟨pts3d, h1, -, -⟩ := C7_color_from_frame0_positions.1 exExt (fun _ => 0)
      exCams exTables0 exPrev exFlow exUndist exImage 1 _ _ rfl
    exact ⟨pts3d, h1⟩
  · rw [C7_color_from_frame0_positions.2 [default] [listToRMat [(0, 0)]] exImage 0
      (by decide)]
    norm_num [listToRMat, ratTrunc, exImage]
